import Mathlib

/-!
Shallow embedding of the Game-of-Life universe from `src/src/lib.rs`
(`vrnimje/Game-of-Life-Rust-Wasm`), together with theorems settling the
specification claims about it.

Modelling conventions:
* Rust `u32`/`usize` values are modelled as `Nat`.  Every claim below concerns
  universes whose cell buffer actually exists (`cells.length = width * height`
  on a 32-bit wasm target), where the `u32` arithmetic of the source never
  wraps, so `Nat` and `u32` arithmetic agree on all reachable inputs.
* A Rust operation that can panic on an out-of-range `Vec` index
  (`self.cells[i]` with `i >= len`) is modelled as returning `Option`:
  `none` is the panic.
* `js_sys::Math::random() > 0.5` in `Universe::new` is an external oracle; it
  is modelled as a boolean coin stream indexed by cell position.
-/

/-- `Cell` from the source: a one-byte two-state value. -/
inductive Cell : Type where
  | Dead : Cell
  | Alive : Cell
deriving DecidableEq, Repr, BEq

/-- The numeric value of a cell (`Cell as u8` in the source: Dead = 0, Alive = 1). -/
def cellVal : Cell → Nat
  | Cell.Dead => 0
  | Cell.Alive => 1

/-- `Cell::toggle`: flips Dead and Alive. -/
def Cell.toggle : Cell → Cell
  | Cell.Alive => Cell.Dead
  | Cell.Dead => Cell.Alive

/-- `Universe` from the source: dimensions plus a flat row-major cell buffer. -/
structure Universe : Type where
  width : Nat
  height : Nat
  cells : List Cell
deriving DecidableEq, Repr

/-- The data-model invariant: the buffer has exactly `width * height` cells. -/
def Universe.wf (u : Universe) : Prop :=
  u.cells.length = u.width * u.height

instance (u : Universe) : Decidable u.wf := by
  unfold Universe.wf; infer_instance

/-- `Universe::get_index`: `row * width + col`, with no bounds validation. -/
def Universe.get_index (u : Universe) (row col : Nat) : Nat :=
  row * u.width + col

/-- `Universe::neigh_alive_count`: iterates `d_row` over `[height-1, 0, 1]` and
`d_col` over `[width-1, 0, 1]`, skips the pair whose values are `(0, 0)`, and
sums the cell values at `((row + d_row) % height, (col + d_col) % width)`.
The source indexes `self.cells[i]` directly; here an out-of-range index reads
`Dead`, which never happens on a well-formed universe. -/
def Universe.neigh_alive_count (u : Universe) (row col : Nat) : Nat :=
  [u.height - 1, 0, 1].foldl (fun count d_row =>
    [u.width - 1, 0, 1].foldl (fun count d_col =>
      if d_row = 0 ∧ d_col = 0 then count
      else
        let n_row := (row + d_row) % u.height
        let n_col := (col + d_col) % u.width
        count + cellVal (u.cells.getD (u.get_index n_row n_col) Cell.Dead)) count) 0

/-- `Universe::set_width`: replaces the width and reallocates the buffer to
`width * height` Dead cells. -/
def Universe.set_width (u : Universe) (width : Nat) : Universe :=
  { u with width := width, cells := List.replicate (width * u.height) Cell.Dead }

/-- `Universe::set_height`: replaces the height and reallocates the buffer to
`width * height` Dead cells. -/
def Universe.set_height (u : Universe) (height : Nat) : Universe :=
  { u with height := height, cells := List.replicate (u.width * height) Cell.Dead }

/-- Writing `self.cells[i] = c`: panics (`none`) when `i` is out of range. -/
def writeCell (u : Universe) (i : Nat) (c : Cell) : Option Universe :=
  if i < u.cells.length then some { u with cells := u.cells.set i c } else none

/-- `Universe::set_cells`: for each `(row, col)` pair sets that cell Alive via
`get_index`; any out-of-range flat index panics. -/
def Universe.set_cells (u : Universe) (ps : List (Nat × Nat)) : Option Universe :=
  ps.foldlM (fun u p => writeCell u (u.get_index p.1 p.2) Cell.Alive) u

/-- The per-cell transition of `Universe::tick`, the `match (cell, alive_count)`
of the source, arm by arm. -/
def golStep (cell : Cell) (n : Nat) : Cell :=
  if cell = Cell.Alive ∧ n < 2 then Cell.Dead
  else if cell = Cell.Alive ∧ (n = 2 ∨ n = 3) then Cell.Alive
  else if cell = Cell.Alive ∧ n > 3 then Cell.Dead
  else if cell = Cell.Dead ∧ n = 3 then Cell.Alive
  else cell

/-- `Universe::tick`: clones the buffer into `future`, then for every
`row < height`, `col < width` writes `future[get_index row col]` with the rule
applied to the *current* cell and its *current* neighbour count, and finally
installs `future`. -/
def Universe.tick (u : Universe) : Universe :=
  { u with
    cells :=
      (List.range u.height).foldl (fun fut row =>
        (List.range u.width).foldl (fun fut col =>
          fut.set (u.get_index row col)
            (golStep (u.cells.getD (u.get_index row col) Cell.Dead)
              (u.neigh_alive_count row col))) fut) u.cells }

/-- `Universe::new`: a 64 × 64 universe whose cells are drawn from a random
coin per position (`js_sys::Math::random() > 0.5`), modelled as an oracle. -/
def Universe.new (coins : Nat → Bool) : Universe :=
  { width := 64, height := 64,
    cells := (List.range (64 * 64)).map
      (fun i => if coins i then Cell.Alive else Cell.Dead) }

/-- `Universe::toggle_cell`: toggles the cell at flat index
`get_index row col`; panics when that index is out of range. -/
def Universe.toggle_cell (u : Universe) (row col : Nat) : Option Universe :=
  let i := u.get_index row col
  if h : i < u.cells.length then
    some { u with cells := u.cells.set i (u.cells.get ⟨i, h⟩).toggle }
  else none

/-- `Universe::clear`: replaces the buffer with `cells.len()` Dead cells. -/
def Universe.clear (u : Universe) : Universe :=
  { u with cells := List.replicate u.cells.length Cell.Dead }

/-- `Universe::insert_glider`: nine unchecked writes stamping the fixed 3 × 3
pattern around `(row, col)`; any single out-of-range flat index panics.  The
claims only concern `row ≥ 1`, `col ≥ 1`, where the source's `u32`
subtractions cannot underflow and agree with `Nat` subtraction. -/
def Universe.insert_glider (u : Universe) (row col : Nat) : Option Universe := do
  let u ← writeCell u (u.get_index (row - 1) (col - 1)) Cell.Dead
  let u ← writeCell u (u.get_index (row - 1) col) Cell.Alive
  let u ← writeCell u (u.get_index (row - 1) (col + 1)) Cell.Dead
  let u ← writeCell u (u.get_index row (col - 1)) Cell.Dead
  let u ← writeCell u (u.get_index row col) Cell.Dead
  let u ← writeCell u (u.get_index row (col + 1)) Cell.Alive
  let u ← writeCell u (u.get_index (row + 1) (col - 1)) Cell.Alive
  let u ← writeCell u (u.get_index (row + 1) col) Cell.Alive
  let u ← writeCell u (u.get_index (row + 1) (col + 1)) Cell.Alive
  pure u

/-- The glyph of one cell in the `Display` implementation. -/
def cellGlyph (c : Cell) : Char :=
  if c = Cell.Dead then '◻' else '◼'

/-- `<[Cell]>::chunks width` on the cell buffer, as used by `Display`
(`width = 0`, on which the Rust `chunks` panics, is outside every claim). -/
def chunksOf (w : Nat) : List Cell → List (List Cell)
  | [] => []
  | x :: xs =>
    if _h : w = 0 then []
    else (x :: xs).take w :: chunksOf w ((x :: xs).drop w)
termination_by l => l.length
decreasing_by simp; omega

/-- `Universe::render` via `impl fmt::Display`: each `width`-chunk of the
buffer printed glyph by glyph, each chunk followed by a newline. -/
def Universe.render (u : Universe) : String :=
  String.join ((chunksOf u.width u.cells).map
    (fun line => String.mk (line.map cellGlyph) ++ "\n"))

/-! Spec-side definitions, written from the specification's words, for the
refinement claims. -/

/-- Modelled from the spec: the number of Alive cells among the 8 toroidal
neighbours of `(row, col)` — offsets `row ± 1`, `col ± 1`, each taken
independently and reduced modulo `height` / `width`. -/
def specNeighCount (u : Universe) (row col : Nat) : Nat :=
  ([(-1, -1), (-1, 0), (-1, 1), (0, -1), (0, 1), (1, -1), (1, 0), (1, 1)] :
      List (Int × Int)).foldl
    (fun count d =>
      let n_row := (((row : Int) + d.1) % (u.height : Int)).toNat
      let n_col := (((col : Int) + d.2) % (u.width : Int)).toNat
      count + cellVal (u.cells.getD (n_row * u.width + n_col) Cell.Dead)) 0

/-- Modelled from the spec: the textual rendering as `height` rows in
row-major order, each row exactly `width` glyphs followed by a newline. -/
def specRender (u : Universe) : String :=
  String.join ((List.range u.height).map (fun r =>
    String.mk ((List.range u.width).map
      (fun c => cellGlyph (u.cells.getD (r * u.width + c) Cell.Dead))) ++ "\n"))

/-- The fixed 3 × 3 glider pattern of the spec, row-major from the top-left
corner of the stamped block: `.#.` / `..#` / `###`. -/
def gliderPat (r c : Nat) : Cell :=
  [[Cell.Dead, Cell.Alive, Cell.Dead],
   [Cell.Dead, Cell.Dead, Cell.Alive],
   [Cell.Alive, Cell.Alive, Cell.Alive]].getD r [] |>.getD c Cell.Dead

/-- An all-Dead universe of the given size, used by concrete test scenes. -/
def deadUniverse (w h : Nat) : Universe :=
  { width := w, height := h, cells := List.replicate (w * h) Cell.Dead }

/-! Scene machinery for the glider claim: a scene is a finite list of
Int offsets relative to an anchor cell; `stamp` realises it on a torus, and
`evolveScene` is the pure Game-of-Life step on scenes. -/

/-- The 8 neighbour offsets, in the order of the spec's toroidal loop. -/
def offs8 : List (Int × Int) :=
  [(-1, -1), (-1, 0), (-1, 1), (0, -1), (0, 1), (1, -1), (1, 0), (1, 1)]

def offs9 : List (Int × Int) := (0, 0) :: offs8

def sceneCell (S : List (Int × Int)) (r c i j : Nat) : Cell :=
  if ((i : Int) - r, (j : Int) - c) ∈ S then Cell.Alive else Cell.Dead

def stamp (w h r c : Nat) (S : List (Int × Int)) : Universe :=
  ⟨w, h, (List.range (h * w)).map (fun k => sceneCell S r c (k / w) (k % w))⟩

def sceneCount (S : List (Int × Int)) (p : Int × Int) : Nat :=
  offs8.foldl (fun n d => n + (if (p.1 + d.1, p.2 + d.2) ∈ S then 1 else 0)) 0

def dilate (S : List (Int × Int)) : List (Int × Int) :=
  S.flatMap (fun s => offs9.map (fun d => (s.1 - d.1, s.2 - d.2)))

def evolveScene (S : List (Int × Int)) : List (Int × Int) :=
  (dilate S).filter (fun p =>
    decide (golStep (if p ∈ S then Cell.Alive else Cell.Dead) (sceneCount S p) =
      Cell.Alive))

def gliderScene : List (Int × Int) := [(-1, 0), (0, 1), (1, -1), (1, 0), (1, 1)]

def S1lit : List (Int × Int) := [(0, -1), (0, 1), (1, 0), (1, 1), (2, 0)]

def S2lit : List (Int × Int) := [(0, 1), (1, -1), (1, 1), (2, 0), (2, 1)]

def S3lit : List (Int × Int) := [(0, 0), (1, 1), (1, 2), (2, 0), (2, 1)]

-- check membership sets match the clean literals / final shift

/-! Helper lemmas about list writes. -/

lemma getD_of_length_le (l : List Cell) (j : Nat) (d : Cell) (h : l.length ≤ j) :
    l.getD j d = d := by
  simp [List.getD_eq_getElem?_getD, List.getElem?_eq_none h]

lemma getD_set_self (l : List Cell) (i : Nat) (a d : Cell) (h : i < l.length) :
    (l.set i a).getD i d = a := by
  simp [List.getD_eq_getElem?_getD, List.getElem?_set_self h]

lemma getD_set_ne (l : List Cell) (i j : Nat) (a d : Cell) (h : i ≠ j) :
    (l.set i a).getD j d = l.getD j d := by
  simp [List.getD_eq_getElem?_getD, List.getElem?_set_ne h]

lemma length_foldl_set (idx : Nat → Nat) (v : Nat → Cell) (l : List Nat) :
    ∀ fut : List Cell,
      (l.foldl (fun fut i => fut.set (idx i) (v i)) fut).length = fut.length := by
  induction l with
  | nil => intro fut; rfl
  | cons a l ih => intro fut; simp [List.foldl_cons, ih]

/-- One row of the `tick` write loop: writing `v c` at `start + c` for every
`c < w` overwrites exactly the in-range window `[start, start + w)`. -/
lemma foldl_set_row (v : Nat → Cell) (w start : Nat) :
    ∀ (fut : List Cell) (j : Nat) (d : Cell),
      ((List.range w).foldl (fun fut c => fut.set (start + c) (v c)) fut).getD j d =
        if start ≤ j ∧ j < start + w ∧ j < fut.length then v (j - start)
        else fut.getD j d := by
  induction w with
  | zero =>
    intro fut j d
    rw [List.range_zero, List.foldl_nil, if_neg (by omega)]
  | succ w ih =>
    intro fut j d
    rw [List.range_succ, List.foldl_append, List.foldl_cons, List.foldl_nil]
    have hlen : ((List.range w).foldl
        (fun fut c => fut.set (start + c) (v c)) fut).length = fut.length :=
      length_foldl_set (fun c => start + c) v (List.range w) fut
    by_cases hj : j = start + w
    · subst hj
      by_cases hl : start + w < fut.length
      · rw [getD_set_self _ _ _ _ (by rw [hlen]; exact hl)]
        have : start ≤ start + w ∧ start + w < start + (w + 1) ∧
            start + w < fut.length := by omega
        rw [if_pos this]
        congr 1
        omega
      · rw [getD_of_length_le _ _ _ (by rw [List.length_set, hlen]; omega),
          if_neg (by omega)]
        exact (getD_of_length_le fut _ _ (by omega)).symm
    · rw [getD_set_ne _ _ _ _ _ (by omega), ih]
      by_cases hc : start ≤ j ∧ j < start + w ∧ j < fut.length
      · rw [if_pos hc, if_pos (by omega)]
      · rw [if_neg hc, if_neg (by omega)]

lemma length_foldl_grid (val : Nat → Nat → Cell) (w : Nat) :
    ∀ (n : Nat) (f : List Cell),
      ((List.range n).foldl (fun fut row =>
          (List.range w).foldl
            (fun fut col => fut.set (row * w + col) (val row col)) fut)
        f).length = f.length := by
  intro n
  induction n with
  | zero => intro f; rfl
  | succ m ihm =>
    intro f
    rw [List.range_succ, List.foldl_append, List.foldl_cons, List.foldl_nil,
      length_foldl_set (fun c => m * w + c) (fun c => val m c) (List.range w), ihm]

/-- The full `tick` write loop: after all rows `< n` are written, position
`j = r * w + c` (with `c < w`) holds `val r c`, and nothing else changed. -/
lemma foldl_set_grid (val : Nat → Nat → Cell) (w : Nat) (hw : 0 < w) :
    ∀ (n : Nat) (fut : List Cell) (j : Nat) (d : Cell),
      ((List.range n).foldl (fun fut row =>
          (List.range w).foldl
            (fun fut col => fut.set (row * w + col) (val row col)) fut)
        fut).getD j d =
        if j < n * w ∧ j < fut.length then val (j / w) (j % w)
        else fut.getD j d := by
  intro n
  induction n with
  | zero => intro fut j d; simp
  | succ n ih =>
    intro fut j d
    rw [List.range_succ, List.foldl_append, List.foldl_cons, List.foldl_nil]
    rw [foldl_set_row (fun c => val n c) w (n * w), ih, length_foldl_grid]
    have hsucc : (n + 1) * w = n * w + w := by ring
    by_cases hwin : n * w ≤ j ∧ j < n * w + w ∧ j < fut.length
    · rw [if_pos hwin]
      have hj : j = n * w + (j - n * w) := by omega
      have hr : j - n * w < w := by omega
      have hdiv : j / w = n := by
        rw [hj, Nat.add_comm, Nat.add_mul_div_right _ _ hw, Nat.div_eq_of_lt hr]
        omega
      have hmod : j % w = j - n * w := by
        rw [hj, Nat.add_comm, Nat.add_mul_mod_self_right, Nat.mod_eq_of_lt hr]
        omega
      rw [if_pos (by omega), hdiv, hmod]
    · rw [if_neg hwin]
      by_cases hin : j < n * w ∧ j < fut.length
      · rw [if_pos hin, if_pos (by omega)]
      · rw [if_neg hin, if_neg (by omega)]

/-- `tick` is double-buffered: every cell of the post-tick buffer is the rule
applied to the pre-tick cell and its pre-tick `neigh_alive_count`. -/
lemma tick_getD (u : Universe) (hwf : u.wf) (r c : Nat)
    (hr : r < u.height) (hc : c < u.width) :
    u.tick.cells.getD (r * u.width + c) Cell.Dead =
      golStep (u.cells.getD (r * u.width + c) Cell.Dead)
        (u.neigh_alive_count r c) := by
  have hw : 0 < u.width := by omega
  have hj1 : r * u.width + c < u.height * u.width := by
    calc r * u.width + c < r * u.width + u.width := by omega
    _ = (r + 1) * u.width := by ring
    _ ≤ u.height * u.width := Nat.mul_le_mul_right _ (by omega)
  have hj2 : r * u.width + c < u.cells.length := by
    have hcomm : u.width * u.height = u.height * u.width := Nat.mul_comm _ _
    rw [hwf]; omega
  have hdiv : (r * u.width + c) / u.width = r := by
    rw [Nat.add_comm, Nat.add_mul_div_right _ _ hw, Nat.div_eq_of_lt hc]
    omega
  have hmod : (r * u.width + c) % u.width = c := by
    rw [Nat.add_comm, Nat.add_mul_mod_self_right, Nat.mod_eq_of_lt hc]
  show ((List.range u.height).foldl (fun fut row =>
      (List.range u.width).foldl (fun fut col =>
        fut.set (row * u.width + col)
          (golStep (u.cells.getD (row * u.width + col) Cell.Dead)
            (u.neigh_alive_count row col))) fut) u.cells).getD
      (r * u.width + c) Cell.Dead = _
  rw [foldl_set_grid
      (fun row col => golStep (u.cells.getD (row * u.width + col) Cell.Dead)
        (u.neigh_alive_count row col)) u.width hw u.height u.cells
      (r * u.width + c) Cell.Dead,
    if_pos ⟨by omega, hj2⟩, hdiv, hmod]

lemma tick_width (u : Universe) : u.tick.width = u.width := rfl

lemma tick_height (u : Universe) : u.tick.height = u.height := rfl

lemma tick_length (u : Universe) : u.tick.cells.length = u.cells.length :=
  length_foldl_grid _ u.width u.height u.cells

/-! Bridging Int `emod` offsets of the spec with the source's `Nat` wrapping. -/

lemma toNat_emod_cast (r m : Nat) : ((r : Int) % (m : Int)).toNat = r % m := by
  rw [← Int.natCast_mod, Int.toNat_natCast]

lemma toNat_emod_add_one (r m : Nat) :
    (((r : Int) + 1) % (m : Int)).toNat = (r + 1) % m := by
  have h : (r : Int) + 1 = ((r + 1 : Nat) : Int) := by push_cast; ring
  rw [h, ← Int.natCast_mod, Int.toNat_natCast]

lemma toNat_emod_sub_one (r m : Nat) (hm : 0 < m) :
    (((r : Int) + (-1)) % (m : Int)).toNat = (r + (m - 1)) % m := by
  have h1 : ((r : Int) + (-1)) % (m : Int) =
      ((r : Int) + ((m : Int) - 1)) % (m : Int) := by
    conv_rhs => rw [show (r : Int) + ((m : Int) - 1) =
      (r : Int) + (-1) + (m : Int) * 1 by ring]
    rw [Int.add_mul_emod_self_left]
  have h2 : (r : Int) + ((m : Int) - 1) = ((r + (m - 1) : Nat) : Int) := by
    have hc : ((m - 1 : Nat) : Int) = (m : Int) - 1 := by omega
    rw [Nat.cast_add, hc]
  rw [h1, h2, ← Int.natCast_mod, Int.toNat_natCast]

/-- On a grid with both dimensions at least 2, the source's delta loop
`[height-1, 0, 1] × [width-1, 0, 1]` (skipping the value pair `(0,0)`)
enumerates exactly the spec's 8 independent `± 1` toroidal offsets. -/
lemma neigh_eq_spec (u : Universe) (hh : 2 ≤ u.height) (hw : 2 ≤ u.width)
    (row col : Nat) :
    u.neigh_alive_count row col = specNeighCount u row col := by
  have h1 : ¬(u.height - 1 = 0) := by omega
  have h2 : ¬(u.width - 1 = 0) := by omega
  have hh0 : 0 < u.height := by omega
  have hw0 : 0 < u.width := by omega
  simp only [Universe.neigh_alive_count, specNeighCount, Universe.get_index,
    List.foldl_cons, List.foldl_nil]
  simp only [h1, h2, false_and, and_false, and_true, and_self, if_false, if_true,
    ite_false, ite_true, one_ne_zero, Nat.add_zero, Int.add_zero]
  simp only [toNat_emod_sub_one _ _ hh0, toNat_emod_sub_one _ _ hw0,
    toNat_emod_add_one, toNat_emod_cast]

/-! Preservation helpers for the fallible operations. -/

lemma writeCell_pres (u v : Universe) (i : Nat) (c : Cell)
    (h : writeCell u i c = some v) :
    v.width = u.width ∧ v.height = u.height ∧
      v.cells.length = u.cells.length := by
  unfold writeCell at h
  split at h
  · cases h; simp
  · cases h

lemma all_wf_bind (o : Option Universe) (f : Universe → Option Universe)
    (h1 : o.all (fun v => decide v.wf) = true)
    (h2 : ∀ v, v.wf → (f v).all (fun v => decide v.wf) = true) :
    (o >>= f).all (fun v => decide v.wf) = true := by
  cases o with
  | none => rfl
  | some v =>
    simp only [Option.all_some, decide_eq_true_eq] at h1
    simpa using h2 v h1

lemma writeCell_all_wf (u : Universe) (hu : u.wf) (i : Nat) (c : Cell) :
    (writeCell u i c).all (fun v => decide v.wf) = true := by
  unfold writeCell
  split
  · simpa [Universe.wf] using hu
  · rfl

lemma set_cells_all_wf :
    ∀ (ps : List (Nat × Nat)) (u : Universe), u.wf →
      (u.set_cells ps).all (fun v => decide v.wf) = true := by
  intro ps
  induction ps with
  | nil => intro u hu; simpa [Universe.set_cells] using hu
  | cons p ps ih =>
    intro u hu
    show ((writeCell u (u.get_index p.1 p.2) Cell.Alive) >>=
      (fun u => u.set_cells ps)).all (fun v => decide v.wf) = true
    · exact all_wf_bind _ _ (writeCell_all_wf u hu _ _) (fun v hv => ih v hv)

/-- C8: `clear` sets every cell to Dead, leaves the dimensions unchanged, and
calling it twice yields exactly the same state as calling it once. -/
theorem C8_clear_dead_idempotent (u : Universe) :
    u.clear.width = u.width ∧ u.clear.height = u.height ∧
    u.clear.cells.all (fun c => c == Cell.Dead) = true ∧
    u.clear.clear = u.clear := by
  refine ⟨rfl, rfl, ?_, ?_⟩
  · simp only [Universe.clear, List.all_eq_true, List.mem_replicate]
    intro c hc
    rw [hc.2]
    decide
  · simp [Universe.clear]

/-- C5: `set_width w2` gives width `w2`, an all-Dead buffer of length
`w2 * height`; `set_height h2` gives height `h2`, an all-Dead buffer of
length `width * h2`.  No prior content survives. -/
theorem C5_resize_clears (u : Universe) (w2 h2 : Nat)
    (hw2 : 1 ≤ w2) (hh2 : 1 ≤ h2) :
    (u.set_width w2).width = w2 ∧ (u.set_width w2).height = u.height ∧
    (u.set_width w2).cells.length = w2 * u.height ∧
    (u.set_width w2).cells.all (fun c => c == Cell.Dead) = true ∧
    (u.set_height h2).height = h2 ∧ (u.set_height h2).width = u.width ∧
    (u.set_height h2).cells.length = u.width * h2 ∧
    (u.set_height h2).cells.all (fun c => c == Cell.Dead) = true := by
  refine ⟨rfl, rfl, by simp [Universe.set_width], ?_, rfl, rfl,
    by simp [Universe.set_height], ?_⟩ <;>
  · simp only [Universe.set_width, Universe.set_height, List.all_eq_true,
      List.mem_replicate]
    intro c hc
    rw [hc.2]
    decide

/-- Witness for C5 at a concrete patterned universe. -/
theorem C5_resize_clears_witness :
    ((⟨2, 2, [Cell.Alive, Cell.Dead, Cell.Dead, Cell.Alive]⟩ :
        Universe).set_width 3).width = 3 ∧
    ((⟨2, 2, [Cell.Alive, Cell.Dead, Cell.Dead, Cell.Alive]⟩ :
        Universe).set_width 3).height = 2 ∧
    ((⟨2, 2, [Cell.Alive, Cell.Dead, Cell.Dead, Cell.Alive]⟩ :
        Universe).set_width 3).cells.length = 3 * 2 ∧
    ((⟨2, 2, [Cell.Alive, Cell.Dead, Cell.Dead, Cell.Alive]⟩ :
        Universe).set_width 3).cells.all (fun c => c == Cell.Dead) = true ∧
    ((⟨2, 2, [Cell.Alive, Cell.Dead, Cell.Dead, Cell.Alive]⟩ :
        Universe).set_height 5).height = 5 ∧
    ((⟨2, 2, [Cell.Alive, Cell.Dead, Cell.Dead, Cell.Alive]⟩ :
        Universe).set_height 5).width = 2 ∧
    ((⟨2, 2, [Cell.Alive, Cell.Dead, Cell.Dead, Cell.Alive]⟩ :
        Universe).set_height 5).cells.length = 2 * 5 ∧
    ((⟨2, 2, [Cell.Alive, Cell.Dead, Cell.Dead, Cell.Alive]⟩ :
        Universe).set_height 5).cells.all (fun c => c == Cell.Dead) = true :=
  C5_resize_clears ⟨2, 2, [Cell.Alive, Cell.Dead, Cell.Dead, Cell.Alive]⟩ 3 5
    (by decide) (by decide)

/-- Counterexample to C6: on the 2 × 2 all-Dead universe (width, height ≥ 1),
`toggle_cell(0, width)` does not fail, contrary to the claim. -/
theorem C6_counterexample :
    (deadUniverse 2 2).toggle_cell 0 (deadUniverse 2 2).width ≠ none := by
  decide

/-- C6 (amended): `toggle_cell(height, 0)` always fails, but an operation
converting `(row, col)` to a flat index fails exactly when
`row * width + col ≥ width * height`; in particular `toggle_cell(0, width)`
fails only when `height = 1`, and otherwise silently wraps. -/
theorem C6_bounds_amended (u : Universe) (hu : u.wf)
    (hw : 1 ≤ u.width) (hh : 1 ≤ u.height) (r c : Nat) :
    u.toggle_cell u.height 0 = none ∧
    (u.toggle_cell 0 u.width = none ↔ u.height = 1) ∧
    (u.toggle_cell r c = none ↔ u.width * u.height ≤ r * u.width + c) := by
  have hnone : ∀ r' c' : Nat, u.toggle_cell r' c' = none ↔
      u.width * u.height ≤ r' * u.width + c' := by
    intro r' c'
    unfold Universe.toggle_cell Universe.get_index
    dsimp only
    split
    · rename_i hlt
      rw [hu] at hlt
      simp only [reduceCtorEq, false_iff]
      omega
    · rename_i hlt
      rw [hu] at hlt
      simp only [true_iff]
      omega
  refine ⟨?_, ?_, hnone r c⟩
  · rw [hnone]
    have : u.height * u.width = u.width * u.height := Nat.mul_comm _ _
    omega
  · rw [hnone]
    constructor
    · intro hle
      by_contra hne
      have h2 : 2 ≤ u.height := by omega
      have : u.width * 2 ≤ u.width * u.height := Nat.mul_le_mul_left _ h2
      omega
    · intro h1
      rw [h1]
      omega

/-- Witness for C6 (amended) on a concrete 2 × 2 universe. -/
theorem C6_bounds_amended_witness :
    (deadUniverse 2 2).toggle_cell (deadUniverse 2 2).height 0 = none ∧
    ((deadUniverse 2 2).toggle_cell 0 (deadUniverse 2 2).width = none ↔
      (deadUniverse 2 2).height = 1) ∧
    ((deadUniverse 2 2).toggle_cell 5 0 = none ↔
      (deadUniverse 2 2).width * (deadUniverse 2 2).height ≤
        5 * (deadUniverse 2 2).width + 0) :=
  C6_bounds_amended (deadUniverse 2 2) (by decide) (by decide) (by decide) 5 0

lemma set_cells_isSome :
    ∀ (ps : List (Nat × Nat)) (u : Universe), u.wf →
      (∀ p ∈ ps, p.1 * u.width + p.2 < u.width * u.height) →
      (u.set_cells ps).isSome = true := by
  intro ps
  induction ps with
  | nil => intro u hu hps; rfl
  | cons p ps ih =>
    intro u hu hps
    show ((writeCell u (u.get_index p.1 p.2) Cell.Alive) >>=
      (fun u => u.set_cells ps)).isSome = true
    have hidx : u.get_index p.1 p.2 < u.cells.length := by
      rw [hu]; exact hps p (List.mem_cons_self _ _)
    unfold writeCell
    rw [if_pos hidx]
    show (Universe.set_cells _ ps).isSome = true
    apply ih
    · simpa [Universe.wf] using hu
    · intro q hq
      simpa using hps q (List.mem_cons_of_mem _ hq)

/-- C10: operations going through `get_index` succeed whenever the flat index
`row * width + col` is in range, even with `col ≥ width`; in particular
`toggle_cell(0, width)` on a universe with `height ≥ 2` succeeds and acts on
row 1, column 0. -/
theorem C10_in_range_index_wraps (u : Universe) (hu : u.wf)
    (hw1 : 1 ≤ u.width) (hh2 : 2 ≤ u.height) (r c : Nat)
    (hidx : r * u.width + c < u.width * u.height)
    (ps : List (Nat × Nat))
    (hps : ∀ p ∈ ps, p.1 * u.width + p.2 < u.width * u.height) :
    (u.toggle_cell r c).isSome = true ∧
    (u.set_cells ps).isSome = true ∧
    (u.toggle_cell 0 u.width).isSome = true ∧
    u.toggle_cell 0 u.width = u.toggle_cell 1 0 := by
  have htog : ∀ r' c' : Nat, r' * u.width + c' < u.width * u.height →
      (u.toggle_cell r' c').isSome = true := by
    intro r' c' h
    unfold Universe.toggle_cell Universe.get_index
    dsimp only
    rw [dif_pos (by rw [hu]; exact h)]
    rfl
  refine ⟨htog r c hidx, set_cells_isSome ps u hu hps, ?_, ?_⟩
  · apply htog
    have h2 : u.width * 2 ≤ u.width * u.height := Nat.mul_le_mul_left _ hh2
    omega
  · simp only [Universe.toggle_cell, Universe.get_index, Nat.zero_mul,
      Nat.zero_add, Nat.one_mul, Nat.add_zero]

/-- Witness for C10 on a concrete 2 × 2 universe. -/
theorem C10_in_range_index_wraps_witness :
    ((deadUniverse 2 2).toggle_cell 0 3).isSome = true ∧
    ((deadUniverse 2 2).set_cells [(0, 3), (1, 1)]).isSome = true ∧
    ((deadUniverse 2 2).toggle_cell 0 (deadUniverse 2 2).width).isSome = true ∧
    (deadUniverse 2 2).toggle_cell 0 (deadUniverse 2 2).width =
      (deadUniverse 2 2).toggle_cell 1 0 :=
  C10_in_range_index_wraps (deadUniverse 2 2) (by decide) (by decide)
    (by decide) 0 3 (by decide) [(0, 3), (1, 1)] (by decide)

/-- C3: `cells.length = width * height` holds after `new` and is preserved
by every operation that returns normally. -/
theorem C3_length_invariant (u : Universe) (hu : u.wf) (coins : Nat → Bool)
    (r c : Nat) (ps : List (Nat × Nat)) (gr gc w2 h2 : Nat) :
    (Universe.new coins).wf ∧
    u.tick.wf ∧
    u.clear.wf ∧
    (u.set_width w2).wf ∧
    (u.set_height h2).wf ∧
    (u.toggle_cell r c).all (fun v => decide v.wf) = true ∧
    (u.set_cells ps).all (fun v => decide v.wf) = true ∧
    (u.insert_glider gr gc).all (fun v => decide v.wf) = true := by
  refine ⟨?_, ?_, ?_, ?_, ?_, ?_, set_cells_all_wf ps u hu, ?_⟩
  · simp [Universe.new, Universe.wf]
  · show u.tick.cells.length = u.width * u.height
    rw [tick_length, hu]
  · show u.clear.cells.length = u.width * u.height
    simp only [Universe.clear, List.length_replicate]
    exact hu
  · simp [Universe.set_width, Universe.wf]
  · simp [Universe.set_height, Universe.wf]
  · unfold Universe.toggle_cell
    dsimp only
    split
    · simpa [Universe.wf] using hu
    · rfl
  · unfold Universe.insert_glider
    exact all_wf_bind _ _ (writeCell_all_wf u hu _ _) (fun u1 h1 =>
      all_wf_bind _ _ (writeCell_all_wf u1 h1 _ _) (fun u2 h2 =>
      all_wf_bind _ _ (writeCell_all_wf u2 h2 _ _) (fun u3 h3 =>
      all_wf_bind _ _ (writeCell_all_wf u3 h3 _ _) (fun u4 h4 =>
      all_wf_bind _ _ (writeCell_all_wf u4 h4 _ _) (fun u5 h5 =>
      all_wf_bind _ _ (writeCell_all_wf u5 h5 _ _) (fun u6 h6 =>
      all_wf_bind _ _ (writeCell_all_wf u6 h6 _ _) (fun u7 h7 =>
      all_wf_bind _ _ (writeCell_all_wf u7 h7 _ _) (fun u8 h8 =>
      all_wf_bind _ _ (writeCell_all_wf u8 h8 _ _) (fun u9 h9 => by
        simpa using h9)))))))))

/-- Witness for C3 at a concrete universe and concrete operation arguments. -/
theorem C3_length_invariant_witness :
    (Universe.new (fun _ => true)).wf ∧
    (deadUniverse 4 4).tick.wf ∧
    (deadUniverse 4 4).clear.wf ∧
    ((deadUniverse 4 4).set_width 7).wf ∧
    ((deadUniverse 4 4).set_height 9).wf ∧
    ((deadUniverse 4 4).toggle_cell 1 2).all (fun v => decide v.wf) = true ∧
    ((deadUniverse 4 4).set_cells [(0, 0), (3, 3)]).all
      (fun v => decide v.wf) = true ∧
    ((deadUniverse 4 4).insert_glider 2 2).all (fun v => decide v.wf) = true :=
  C3_length_invariant (deadUniverse 4 4) (by decide) (fun _ => true)
    1 2 [(0, 0), (3, 3)] 2 2 7 9

lemma cellVal_le_one (c : Cell) : cellVal c ≤ 1 := by
  cases c <;> simp [cellVal]

lemma specNeighCount_le_eight (u : Universe) (row col : Nat) :
    specNeighCount u row col ≤ 8 := by
  simp only [specNeighCount, List.foldl_cons, List.foldl_nil]
  show 0 + _ + _ + _ + _ + _ + _ + _ + _ ≤ 0 + 1 + 1 + 1 + 1 + 1 + 1 + 1 + 1
  exact Nat.add_le_add (Nat.add_le_add (Nat.add_le_add (Nat.add_le_add
    (Nat.add_le_add (Nat.add_le_add (Nat.add_le_add (Nat.add_le_add
      (Nat.le_refl 0) (cellVal_le_one _)) (cellVal_le_one _))
      (cellVal_le_one _)) (cellVal_le_one _)) (cellVal_le_one _))
      (cellVal_le_one _)) (cellVal_le_one _)) (cellVal_le_one _)

/-- Counterexample to C2: on the 1 × 1 universe with its single cell Alive
(width, height ≥ 1), `neigh_alive_count` returns 5, while the number of
Alive cells among the 8 independent toroidal neighbour offsets is 8 — and a
count excluding the cell itself could only be 0, so the claim fails here. -/
theorem C2_counterexample :
    (⟨1, 1, [Cell.Alive]⟩ : Universe).neigh_alive_count 0 0 = 5 ∧
    specNeighCount ⟨1, 1, [Cell.Alive]⟩ 0 0 = 8 := by
  decide

/-- C2 (amended): for width ≥ 2 and height ≥ 2, `neigh_alive_count` equals
the number of Alive cells among the 8 independent toroidal neighbour
offsets, is at most 8, and row 0's `-1` vertical offset lands on
`height - 1` (toroidal wraparound). -/
theorem C2_neigh_count_amended (u : Universe) (hu : u.wf)
    (hh : 2 ≤ u.height) (hw : 2 ≤ u.width) (row col : Nat)
    (hrow : row < u.height) (hcol : col < u.width) :
    u.neigh_alive_count row col = specNeighCount u row col ∧
    u.neigh_alive_count row col ≤ 8 ∧
    (((0 : Int) + (-1)) % (u.height : Int)).toNat = u.height - 1 := by
  have heq := neigh_eq_spec u hh hw row col
  refine ⟨heq, ?_, ?_⟩
  · rw [heq]
    exact specNeighCount_le_eight u row col
  · have h0 : ((0 : Int) + (-1)) % (u.height : Int) = (u.height : Int) - 1 := by
      have he : (0 : Int) + (-1) =
          ((u.height : Int) - 1) + (u.height : Int) * (-1) := by ring
      rw [he, Int.add_mul_emod_self_left, Int.emod_eq_of_lt (by omega) (by omega)]
    rw [h0]
    omega

/-- Witness for C2 (amended) on a concrete 3 × 3 universe. -/
theorem C2_neigh_count_amended_witness :
    (⟨3, 3, [Cell.Alive, Cell.Dead, Cell.Alive,
             Cell.Dead, Cell.Dead, Cell.Dead,
             Cell.Alive, Cell.Dead, Cell.Dead]⟩ :
        Universe).neigh_alive_count 0 0 =
      specNeighCount ⟨3, 3, [Cell.Alive, Cell.Dead, Cell.Alive,
             Cell.Dead, Cell.Dead, Cell.Dead,
             Cell.Alive, Cell.Dead, Cell.Dead]⟩ 0 0 ∧
    (⟨3, 3, [Cell.Alive, Cell.Dead, Cell.Alive,
             Cell.Dead, Cell.Dead, Cell.Dead,
             Cell.Alive, Cell.Dead, Cell.Dead]⟩ :
        Universe).neigh_alive_count 0 0 ≤ 8 ∧
    (((0 : Int) + (-1)) %
      ((⟨3, 3, [Cell.Alive, Cell.Dead, Cell.Alive,
             Cell.Dead, Cell.Dead, Cell.Dead,
             Cell.Alive, Cell.Dead, Cell.Dead]⟩ : Universe).height : Int)).toNat =
      (⟨3, 3, [Cell.Alive, Cell.Dead, Cell.Alive,
             Cell.Dead, Cell.Dead, Cell.Dead,
             Cell.Alive, Cell.Dead, Cell.Dead]⟩ : Universe).height - 1 :=
  C2_neigh_count_amended
    ⟨3, 3, [Cell.Alive, Cell.Dead, Cell.Alive,
            Cell.Dead, Cell.Dead, Cell.Dead,
            Cell.Alive, Cell.Dead, Cell.Dead]⟩
    (by decide) (by decide) (by decide) 0 0 (by decide) (by decide)

/-- Counterexample to C1: on the 3 × 1 universe `[Alive, Dead, Dead]`
(width, height ≥ 1), `tick` kills cell (0,0), but the standard rule applied
to its pre-tick state and its toroidal neighbour count keeps it Alive. -/
theorem C1_counterexample :
    (⟨3, 1, [Cell.Alive, Cell.Dead, Cell.Dead]⟩ : Universe).tick.cells.getD
        (0 * 3 + 0) Cell.Dead ≠
      golStep
        ((⟨3, 1, [Cell.Alive, Cell.Dead, Cell.Dead]⟩ :
            Universe).cells.getD (0 * 3 + 0) Cell.Dead)
        (specNeighCount ⟨3, 1, [Cell.Alive, Cell.Dead, Cell.Dead]⟩ 0 0) := by
  decide

/-- C1 (amended): for width ≥ 2 and height ≥ 2, after `tick` every cell
`(r, c)` holds the standard rule applied to its pre-tick state and its
pre-tick toroidal neighbour count; the rule only ever reads the pre-tick
buffer, never partially-updated future states. -/
theorem C1_tick_amended (u : Universe) (hu : u.wf) (hh : 2 ≤ u.height)
    (hw : 2 ≤ u.width) (r c : Nat) (hr : r < u.height) (hc : c < u.width) :
    u.tick.width = u.width ∧ u.tick.height = u.height ∧
    u.tick.cells.getD (r * u.width + c) Cell.Dead =
      golStep (u.cells.getD (r * u.width + c) Cell.Dead)
        (specNeighCount u r c) :=
  ⟨rfl, rfl, by rw [tick_getD u hu r c hr hc, neigh_eq_spec u hh hw r c]⟩

/-- Witness for C1 (amended) on a concrete 2 × 2 universe. -/
theorem C1_tick_amended_witness :
    (⟨2, 2, [Cell.Alive, Cell.Alive, Cell.Alive, Cell.Dead]⟩ :
        Universe).tick.width = 2 ∧
    (⟨2, 2, [Cell.Alive, Cell.Alive, Cell.Alive, Cell.Dead]⟩ :
        Universe).tick.height = 2 ∧
    (⟨2, 2, [Cell.Alive, Cell.Alive, Cell.Alive, Cell.Dead]⟩ :
        Universe).tick.cells.getD (0 * 2 + 1) Cell.Dead =
      golStep
        ((⟨2, 2, [Cell.Alive, Cell.Alive, Cell.Alive, Cell.Dead]⟩ :
            Universe).cells.getD (0 * 2 + 1) Cell.Dead)
        (specNeighCount
          ⟨2, 2, [Cell.Alive, Cell.Alive, Cell.Alive, Cell.Dead]⟩ 0 1) :=
  C1_tick_amended ⟨2, 2, [Cell.Alive, Cell.Alive, Cell.Alive, Cell.Dead]⟩
    (by decide) (by decide) (by decide) 0 1 (by decide) (by decide)

/-! Flat-index arithmetic helpers. -/

lemma index_lt (u : Universe) (hu : u.wf) (r c : Nat)
    (hr : r < u.height) (hc : c < u.width) :
    r * u.width + c < u.cells.length := by
  have h1 : r * u.width + c < (r + 1) * u.width := by
    have : (r + 1) * u.width = r * u.width + u.width := by ring
    omega
  have h2 : (r + 1) * u.width ≤ u.height * u.width :=
    Nat.mul_le_mul_right _ (by omega)
  have h3 : u.height * u.width = u.width * u.height := Nat.mul_comm _ _
  rw [hu]
  omega

lemma flat_div (w r c : Nat) (hc : c < w) : (r * w + c) / w = r := by
  rw [Nat.add_comm, Nat.add_mul_div_right _ _ (by omega), Nat.div_eq_of_lt hc]
  omega

lemma index_inj (w r1 c1 r2 c2 : Nat) (hc1 : c1 < w) (hc2 : c2 < w) :
    r1 * w + c1 = r2 * w + c2 ↔ r1 = r2 ∧ c1 = c2 := by
  constructor
  · intro h
    have hr : r1 = r2 := by
      rw [← flat_div w r1 c1 hc1, ← flat_div w r2 c2 hc2, h]
    refine ⟨hr, ?_⟩
    subst hr
    omega
  · rintro ⟨rfl, rfl⟩
    rfl

lemma ne_of_index (w r1 c1 r2 c2 : Nat) (hc1 : c1 < w) (hc2 : c2 < w)
    (h : ¬(r1 = r2 ∧ c1 = c2)) : r1 * w + c1 ≠ r2 * w + c2 :=
  fun he => h ((index_inj w r1 c1 r2 c2 hc1 hc2).mp he)

/-- Under the stamp precondition, `insert_glider` succeeds and its result is
the nine-write set chain of the source, in source order. -/
lemma insert_glider_eq (u : Universe) (hu : u.wf) (row col : Nat)
    (h1r : 1 ≤ row) (h1c : 1 ≤ col)
    (hrow : row + 1 < u.height) (hcol : col + 1 < u.width) :
    u.insert_glider row col = some
      { width := u.width, height := u.height,
        cells := ((((((((u.cells.set
          ((row - 1) * u.width + (col - 1)) Cell.Dead).set
          ((row - 1) * u.width + col) Cell.Alive).set
          ((row - 1) * u.width + (col + 1)) Cell.Dead).set
          (row * u.width + (col - 1)) Cell.Dead).set
          (row * u.width + col) Cell.Dead).set
          (row * u.width + (col + 1)) Cell.Alive).set
          ((row + 1) * u.width + (col - 1)) Cell.Alive).set
          ((row + 1) * u.width + col) Cell.Alive).set
          ((row + 1) * u.width + (col + 1)) Cell.Alive } := by
  have c1 : (row - 1) * u.width + (col - 1) < u.cells.length :=
    index_lt u hu _ _ (by omega) (by omega)
  have c2 : (row - 1) * u.width + col < u.cells.length :=
    index_lt u hu _ _ (by omega) (by omega)
  have c3 : (row - 1) * u.width + (col + 1) < u.cells.length :=
    index_lt u hu _ _ (by omega) (by omega)
  have c4 : row * u.width + (col - 1) < u.cells.length :=
    index_lt u hu _ _ (by omega) (by omega)
  have c5 : row * u.width + col < u.cells.length :=
    index_lt u hu _ _ (by omega) (by omega)
  have c6 : row * u.width + (col + 1) < u.cells.length :=
    index_lt u hu _ _ (by omega) (by omega)
  have c7 : (row + 1) * u.width + (col - 1) < u.cells.length :=
    index_lt u hu _ _ (by omega) (by omega)
  have c8 : (row + 1) * u.width + col < u.cells.length :=
    index_lt u hu _ _ (by omega) (by omega)
  have c9 : (row + 1) * u.width + (col + 1) < u.cells.length :=
    index_lt u hu _ _ (by omega) (by omega)
  simp only [Universe.insert_glider, writeCell, Universe.get_index,
    List.length_set, Option.bind_eq_bind, Option.some_bind,
    c1, c2, c3, c4, c5, c6, c7, c8, c9, if_true]
  rfl

/-- Counterexample to C4: on a 4 × 4 all-Dead universe, `insert_glider(1, 3)`
violates the precondition (`col + 1 = width`) yet does not fail — it wraps
into neighbouring rows instead of raising an out-of-bounds access. -/
theorem C4_counterexample :
    ¬(1 ≥ 1 ∧ 3 ≥ 1 ∧ 1 + 1 < (deadUniverse 4 4).height ∧
        3 + 1 < (deadUniverse 4 4).width) ∧
    ((deadUniverse 4 4).insert_glider 1 3).isSome = true := by
  decide

/-- C4 (amended): under the precondition `row ≥ 1`, `col ≥ 1`,
`row + 1 < height`, `col + 1 < width`, `insert_glider` succeeds and
overwrites exactly the 3 × 3 block from `(row-1, col-1)` to `(row+1, col+1)`
with the fixed pattern `.#.` / `..#` / `###`, leaving all other cells and
the dimensions unchanged.  A violated precondition fails with an
out-of-bounds access only when some written flat index reaches
`width * height`; otherwise (e.g. `col + 1 = width` with `row + 1 < height`)
the write silently wraps to other rows. -/
theorem C4_insert_glider_amended (u : Universe) (hu : u.wf) (row col r c : Nat)
    (h1r : 1 ≤ row) (h1c : 1 ≤ col)
    (hrow : row + 1 < u.height) (hcol : col + 1 < u.width)
    (hr : r < u.height) (hc : c < u.width) :
    (u.insert_glider row col).isSome = true ∧
    ((u.insert_glider row col).getD u).width = u.width ∧
    ((u.insert_glider row col).getD u).height = u.height ∧
    ((u.insert_glider row col).getD u).cells.getD (r * u.width + c) Cell.Dead =
      (if row - 1 ≤ r ∧ r ≤ row + 1 ∧ col - 1 ≤ c ∧ c ≤ col + 1 then
        gliderPat (r - (row - 1)) (c - (col - 1))
      else u.cells.getD (r * u.width + c) Cell.Dead) := by
  have hg := insert_glider_eq u hu row col h1r h1c hrow hcol
  rw [hg]
  refine ⟨rfl, rfl, rfl, ?_⟩
  show (((((((((u.cells.set
      ((row - 1) * u.width + (col - 1)) Cell.Dead).set
      ((row - 1) * u.width + col) Cell.Alive).set
      ((row - 1) * u.width + (col + 1)) Cell.Dead).set
      (row * u.width + (col - 1)) Cell.Dead).set
      (row * u.width + col) Cell.Dead).set
      (row * u.width + (col + 1)) Cell.Alive).set
      ((row + 1) * u.width + (col - 1)) Cell.Alive).set
      ((row + 1) * u.width + col) Cell.Alive).set
      ((row + 1) * u.width + (col + 1)) Cell.Alive).getD
      (r * u.width + c) Cell.Dead = _
  by_cases hb : row - 1 ≤ r ∧ r ≤ row + 1 ∧ col - 1 ≤ c ∧ c ≤ col + 1
  case neg =>
    rw [if_neg hb]
    rw [      getD_set_ne _ _ _ _ _ (ne_of_index u.width (row + 1) (col + 1) r c (by omega) hc (by omega)),
      getD_set_ne _ _ _ _ _ (ne_of_index u.width (row + 1) (col) r c (by omega) hc (by omega)),
      getD_set_ne _ _ _ _ _ (ne_of_index u.width (row + 1) (col - 1) r c (by omega) hc (by omega)),
      getD_set_ne _ _ _ _ _ (ne_of_index u.width (row) (col + 1) r c (by omega) hc (by omega)),
      getD_set_ne _ _ _ _ _ (ne_of_index u.width (row) (col) r c (by omega) hc (by omega)),
      getD_set_ne _ _ _ _ _ (ne_of_index u.width (row) (col - 1) r c (by omega) hc (by omega)),
      getD_set_ne _ _ _ _ _ (ne_of_index u.width (row - 1) (col + 1) r c (by omega) hc (by omega)),
      getD_set_ne _ _ _ _ _ (ne_of_index u.width (row - 1) (col) r c (by omega) hc (by omega)),
      getD_set_ne _ _ _ _ _ (ne_of_index u.width (row - 1) (col - 1) r c (by omega) hc (by omega))]
  case pos =>
    rw [if_pos hb]
    have hrc : r = row - 1 ∨ r = row ∨ r = row + 1 := by omega
    have hcc : c = col - 1 ∨ c = col ∨ c = col + 1 := by omega
    rcases hrc with hre | hre | hre <;> rcases hcc with hce | hce | hce <;>
      rw [hre, hce]
    · rw [        getD_set_ne _ _ _ _ _ (ne_of_index u.width (row + 1) (col + 1) (row - 1) (col - 1) (by omega) (by omega) (by omega)),
        getD_set_ne _ _ _ _ _ (ne_of_index u.width (row + 1) (col) (row - 1) (col - 1) (by omega) (by omega) (by omega)),
        getD_set_ne _ _ _ _ _ (ne_of_index u.width (row + 1) (col - 1) (row - 1) (col - 1) (by omega) (by omega) (by omega)),
        getD_set_ne _ _ _ _ _ (ne_of_index u.width (row) (col + 1) (row - 1) (col - 1) (by omega) (by omega) (by omega)),
        getD_set_ne _ _ _ _ _ (ne_of_index u.width (row) (col) (row - 1) (col - 1) (by omega) (by omega) (by omega)),
        getD_set_ne _ _ _ _ _ (ne_of_index u.width (row) (col - 1) (row - 1) (col - 1) (by omega) (by omega) (by omega)),
        getD_set_ne _ _ _ _ _ (ne_of_index u.width (row - 1) (col + 1) (row - 1) (col - 1) (by omega) (by omega) (by omega)),
        getD_set_ne _ _ _ _ _ (ne_of_index u.width (row - 1) (col) (row - 1) (col - 1) (by omega) (by omega) (by omega)),
        getD_set_self _ _ _ _ (index_lt u hu _ _ (by omega) (by omega))]
      have e1 : row - 1 - (row - 1) = 0 := by omega
      have e2 : col - 1 - (col - 1) = 0 := by omega
      rw [e1, e2]
      rfl
    · rw [        getD_set_ne _ _ _ _ _ (ne_of_index u.width (row + 1) (col + 1) (row - 1) (col) (by omega) (by omega) (by omega)),
        getD_set_ne _ _ _ _ _ (ne_of_index u.width (row + 1) (col) (row - 1) (col) (by omega) (by omega) (by omega)),
        getD_set_ne _ _ _ _ _ (ne_of_index u.width (row + 1) (col - 1) (row - 1) (col) (by omega) (by omega) (by omega)),
        getD_set_ne _ _ _ _ _ (ne_of_index u.width (row) (col + 1) (row - 1) (col) (by omega) (by omega) (by omega)),
        getD_set_ne _ _ _ _ _ (ne_of_index u.width (row) (col) (row - 1) (col) (by omega) (by omega) (by omega)),
        getD_set_ne _ _ _ _ _ (ne_of_index u.width (row) (col - 1) (row - 1) (col) (by omega) (by omega) (by omega)),
        getD_set_ne _ _ _ _ _ (ne_of_index u.width (row - 1) (col + 1) (row - 1) (col) (by omega) (by omega) (by omega)),
        getD_set_self _ _ _ _ (by
          simp only [List.length_set]
          exact index_lt u hu _ _ (by omega) (by omega))]
      have e1 : row - 1 - (row - 1) = 0 := by omega
      have e2 : col - (col - 1) = 1 := by omega
      rw [e1, e2]
      rfl
    · rw [        getD_set_ne _ _ _ _ _ (ne_of_index u.width (row + 1) (col + 1) (row - 1) (col + 1) (by omega) (by omega) (by omega)),
        getD_set_ne _ _ _ _ _ (ne_of_index u.width (row + 1) (col) (row - 1) (col + 1) (by omega) (by omega) (by omega)),
        getD_set_ne _ _ _ _ _ (ne_of_index u.width (row + 1) (col - 1) (row - 1) (col + 1) (by omega) (by omega) (by omega)),
        getD_set_ne _ _ _ _ _ (ne_of_index u.width (row) (col + 1) (row - 1) (col + 1) (by omega) (by omega) (by omega)),
        getD_set_ne _ _ _ _ _ (ne_of_index u.width (row) (col) (row - 1) (col + 1) (by omega) (by omega) (by omega)),
        getD_set_ne _ _ _ _ _ (ne_of_index u.width (row) (col - 1) (row - 1) (col + 1) (by omega) (by omega) (by omega)),
        getD_set_self _ _ _ _ (by
          simp only [List.length_set]
          exact index_lt u hu _ _ (by omega) (by omega))]
      have e1 : row - 1 - (row - 1) = 0 := by omega
      have e2 : col + 1 - (col - 1) = 2 := by omega
      rw [e1, e2]
      rfl
    · rw [        getD_set_ne _ _ _ _ _ (ne_of_index u.width (row + 1) (col + 1) (row) (col - 1) (by omega) (by omega) (by omega)),
        getD_set_ne _ _ _ _ _ (ne_of_index u.width (row + 1) (col) (row) (col - 1) (by omega) (by omega) (by omega)),
        getD_set_ne _ _ _ _ _ (ne_of_index u.width (row + 1) (col - 1) (row) (col - 1) (by omega) (by omega) (by omega)),
        getD_set_ne _ _ _ _ _ (ne_of_index u.width (row) (col + 1) (row) (col - 1) (by omega) (by omega) (by omega)),
        getD_set_ne _ _ _ _ _ (ne_of_index u.width (row) (col) (row) (col - 1) (by omega) (by omega) (by omega)),
        getD_set_self _ _ _ _ (by
          simp only [List.length_set]
          exact index_lt u hu _ _ (by omega) (by omega))]
      have e1 : row - (row - 1) = 1 := by omega
      have e2 : col - 1 - (col - 1) = 0 := by omega
      rw [e1, e2]
      rfl
    · rw [        getD_set_ne _ _ _ _ _ (ne_of_index u.width (row + 1) (col + 1) (row) (col) (by omega) (by omega) (by omega)),
        getD_set_ne _ _ _ _ _ (ne_of_index u.width (row + 1) (col) (row) (col) (by omega) (by omega) (by omega)),
        getD_set_ne _ _ _ _ _ (ne_of_index u.width (row + 1) (col - 1) (row) (col) (by omega) (by omega) (by omega)),
        getD_set_ne _ _ _ _ _ (ne_of_index u.width (row) (col + 1) (row) (col) (by omega) (by omega) (by omega)),
        getD_set_self _ _ _ _ (by
          simp only [List.length_set]
          exact index_lt u hu _ _ (by omega) (by omega))]
      have e1 : row - (row - 1) = 1 := by omega
      have e2 : col - (col - 1) = 1 := by omega
      rw [e1, e2]
      rfl
    · rw [        getD_set_ne _ _ _ _ _ (ne_of_index u.width (row + 1) (col + 1) (row) (col + 1) (by omega) (by omega) (by omega)),
        getD_set_ne _ _ _ _ _ (ne_of_index u.width (row + 1) (col) (row) (col + 1) (by omega) (by omega) (by omega)),
        getD_set_ne _ _ _ _ _ (ne_of_index u.width (row + 1) (col - 1) (row) (col + 1) (by omega) (by omega) (by omega)),
        getD_set_self _ _ _ _ (by
          simp only [List.length_set]
          exact index_lt u hu _ _ (by omega) (by omega))]
      have e1 : row - (row - 1) = 1 := by omega
      have e2 : col + 1 - (col - 1) = 2 := by omega
      rw [e1, e2]
      rfl
    · rw [        getD_set_ne _ _ _ _ _ (ne_of_index u.width (row + 1) (col + 1) (row + 1) (col - 1) (by omega) (by omega) (by omega)),
        getD_set_ne _ _ _ _ _ (ne_of_index u.width (row + 1) (col) (row + 1) (col - 1) (by omega) (by omega) (by omega)),
        getD_set_self _ _ _ _ (by
          simp only [List.length_set]
          exact index_lt u hu _ _ (by omega) (by omega))]
      have e1 : row + 1 - (row - 1) = 2 := by omega
      have e2 : col - 1 - (col - 1) = 0 := by omega
      rw [e1, e2]
      rfl
    · rw [        getD_set_ne _ _ _ _ _ (ne_of_index u.width (row + 1) (col + 1) (row + 1) (col) (by omega) (by omega) (by omega)),
        getD_set_self _ _ _ _ (by
          simp only [List.length_set]
          exact index_lt u hu _ _ (by omega) (by omega))]
      have e1 : row + 1 - (row - 1) = 2 := by omega
      have e2 : col - (col - 1) = 1 := by omega
      rw [e1, e2]
      rfl
    · rw [        getD_set_self _ _ _ _ (by
          simp only [List.length_set]
          exact index_lt u hu _ _ (by omega) (by omega))]
      have e1 : row + 1 - (row - 1) = 2 := by omega
      have e2 : col + 1 - (col - 1) = 2 := by omega
      rw [e1, e2]
      rfl

/-- Witness for C4 (amended): glider stamped at (2,2) on a 5 × 5 grid,
queried at the in-block position (2,3). -/
theorem C4_insert_glider_amended_witness :
    ((deadUniverse 5 5).insert_glider 2 2).isSome = true ∧
    (((deadUniverse 5 5).insert_glider 2 2).getD (deadUniverse 5 5)).width =
      (deadUniverse 5 5).width ∧
    (((deadUniverse 5 5).insert_glider 2 2).getD (deadUniverse 5 5)).height =
      (deadUniverse 5 5).height ∧
    (((deadUniverse 5 5).insert_glider 2 2).getD
        (deadUniverse 5 5)).cells.getD (2 * (deadUniverse 5 5).width + 3)
        Cell.Dead =
      (if 2 - 1 ≤ 2 ∧ 2 ≤ 2 + 1 ∧ 2 - 1 ≤ 3 ∧ 3 ≤ 2 + 1 then
        gliderPat (2 - (2 - 1)) (3 - (2 - 1))
      else (deadUniverse 5 5).cells.getD
        (2 * (deadUniverse 5 5).width + 3) Cell.Dead) :=
  C4_insert_glider_amended (deadUniverse 5 5) (by decide) 2 2 2 3
    (by decide) (by decide) (by decide) (by decide) (by decide) (by decide)

/-! Render: bridging the source's `chunks`-based `Display` loop with the
spec's row-major description. -/

lemma take_drop_eq_map_range (l : List Cell) (d : Cell) :
    ∀ (w a : Nat), a + w ≤ l.length →
      (l.drop a).take w = (List.range w).map (fun c => l.getD (a + c) d) := by
  intro w
  induction w with
  | zero => intro a ha; simp
  | succ w ih =>
    intro a ha
    have hal : a < l.length := by omega
    rw [List.drop_eq_getElem_cons hal, List.take_succ_cons, ih (a + 1) (by omega),
      List.range_succ_eq_map, List.map_cons, List.map_map]
    congr 1
    · rw [Nat.add_zero, List.getD_eq_getElem?_getD, List.getElem?_eq_getElem hal]
      rfl
    · apply List.map_congr_left
      intro c hc
      show l.getD (a + 1 + c) d = l.getD (a + (c + 1)) d
      congr 1
      omega

lemma chunksOf_eq_map_range (w : Nat) (hw : 0 < w) :
    ∀ (h : Nat) (l : List Cell), l.length = w * h →
      chunksOf w l = (List.range h).map (fun r => (l.drop (r * w)).take w) := by
  intro h
  induction h with
  | zero =>
    intro l hl
    rw [Nat.mul_zero] at hl
    rw [List.eq_nil_of_length_eq_zero hl]
    simp [chunksOf]
  | succ h ih =>
    intro l hl
    have hlen : 0 < l.length := by
      rw [hl]
      have : w * 1 ≤ w * (h + 1) := Nat.mul_le_mul_left _ (by omega)
      omega
    obtain ⟨x, xs, rfl⟩ : ∃ x xs, l = x :: xs := by
      cases l with
      | nil => simp at hlen
      | cons x xs => exact ⟨x, xs, rfl⟩
    rw [chunksOf]
    rw [dif_neg (by omega)]
    rw [ih ((x :: xs).drop w) (by
      rw [List.length_drop, hl]
      have : w * (h + 1) = w * h + w := by ring
      omega)]
    rw [List.range_succ_eq_map, List.map_cons, List.map_map]
    congr 1
    · rw [Nat.zero_mul, List.drop_zero]
    · apply List.map_congr_left
      intro r hr
      show ((x :: xs).drop w |>.drop (r * w)).take w =
        ((x :: xs).drop ((r + 1) * w)).take w
      rw [List.drop_drop]
      congr 2
      ring

/-- C9: `render` produces exactly `height` rows in row-major order, each row
being `width` glyphs (`◻` Dead, `◼` Alive) with no separator, each row
terminated by a newline. -/
theorem C9_render_format (u : Universe) (hu : u.wf) (hw : 1 ≤ u.width) :
    u.render = specRender u := by
  unfold Universe.render specRender
  rw [chunksOf_eq_map_range u.width (by omega) u.height u.cells hu,
    List.map_map]
  congr 1
  apply List.map_congr_left
  intro r hr
  have hrh : r < u.height := List.mem_range.mp hr
  have hbound : r * u.width + u.width ≤ u.cells.length := by
    rw [hu]
    have h1 : (r + 1) * u.width ≤ u.height * u.width :=
      Nat.mul_le_mul_right _ (by omega)
    have h2 : (r + 1) * u.width = r * u.width + u.width := by ring
    have h3 : u.height * u.width = u.width * u.height := Nat.mul_comm _ _
    omega
  show String.mk (((u.cells.drop (r * u.width)).take u.width).map cellGlyph) ++
      "\n" = _
  rw [take_drop_eq_map_range u.cells Cell.Dead u.width (r * u.width) hbound,
    List.map_map]
  rfl

/-- Witness for C9 on a concrete 2 × 2 universe. -/
theorem C9_render_format_witness :
    (⟨2, 2, [Cell.Alive, Cell.Dead, Cell.Dead, Cell.Alive]⟩ :
        Universe).render =
      specRender ⟨2, 2, [Cell.Alive, Cell.Dead, Cell.Dead, Cell.Alive]⟩ :=
  C9_render_format ⟨2, 2, [Cell.Alive, Cell.Dead, Cell.Dead, Cell.Alive]⟩
    (by decide) (by decide)

lemma stamp_width (w h r c : Nat) (S : List (Int × Int)) :
    (stamp w h r c S).width = w := rfl

lemma stamp_height (w h r c : Nat) (S : List (Int × Int)) :
    (stamp w h r c S).height = h := rfl

lemma universe_eq (u v : Universe) (h1 : u.width = v.width)
    (h2 : u.height = v.height) (h3 : u.cells = v.cells) : u = v := by
  cases u
  cases v
  simp_all

lemma emod_toNat_lt (m : Nat) (hm : 0 < m) (x : Int) : (x % (m : Int)).toNat < m := by
  have h1 := Int.emod_nonneg x (by omega : (m : Int) ≠ 0)
  have h2 := Int.emod_lt_of_pos x (by omega : 0 < (m : Int))
  omega

lemma flat_mod (w r c : Nat) (hc : c < w) : (r * w + c) % w = c := by
  rw [Nat.add_comm, Nat.add_mul_mod_self_right, Nat.mod_eq_of_lt hc]

lemma stamp_getD (w h r c : Nat) (S : List (Int × Int)) (i j : Nat)
    (hi : i < h) (hj : j < w) :
    (stamp w h r c S).cells.getD (i * w + j) Cell.Dead = sceneCell S r c i j := by
  have hw0 : 0 < w := by omega
  have hk : i * w + j < h * w := by
    have h1 : (i + 1) * w = i * w + w := by ring
    have h2 : (i + 1) * w ≤ h * w := Nat.mul_le_mul_right _ (by omega)
    omega
  show ((List.range (h * w)).map (fun k => sceneCell S r c (k / w) (k % w))).getD
    (i * w + j) Cell.Dead = _
  rw [List.getD_eq_getElem?_getD, List.getElem?_map, List.getElem?_range hk]
  show sceneCell S r c ((i * w + j) / w) ((i * w + j) % w) = _
  rw [flat_div w i j hj, flat_mod w i j hj]

lemma cellVal_sceneCell (S : List (Int × Int)) (r c i j : Nat) :
    cellVal (sceneCell S r c i j) =
      if ((i : Int) - r, (j : Int) - c) ∈ S then 1 else 0 := by
  unfold sceneCell
  split <;> rfl

lemma wrap_coord (m : Nat) (hm : 0 < m) (a : Nat) (ha : a < m) (d : Int)
    (hd : -1 ≤ d ∧ d ≤ 1) :
    ((((a : Int) + d)% (m : Int)).toNat : Int) = (a : Int) + d ∨
    (¬(1 ≤ (a : Int) + d ∧ (a : Int) + d ≤ (m : Int) - 2) ∧
     ¬(1 ≤ ((((a : Int) + d)% (m : Int)).toNat : Int) ∧
        ((((a : Int) + d)% (m : Int)).toNat : Int) ≤ (m : Int) - 2)) := by
  by_cases hin : 0 ≤ (a : Int) + d ∧ (a : Int) + d < m
  · left
    rw [Int.emod_eq_of_lt hin.1 hin.2, Int.toNat_of_nonneg hin.1]
  · right
    have hcase : (a : Int) + d = -1 ∨ (a : Int) + d = m := by omega
    rcases hcase with hc | hc
    · have hval : ((a : Int) + d)% m = (m : Int) - 1 := by
        rw [hc, show (-1 : Int) = ((m : Int) - 1) + (m : Int) * (-1) by ring,
          Int.add_mul_emod_self_left,
          Int.emod_eq_of_lt (by omega) (by omega)]
      rw [hval]
      omega
    · have hval : ((a : Int) + d)% m = 0 := by
        rw [hc, Int.emod_self]
      rw [hval]
      omega

lemma mem_scene_iff (S : List (Int × Int)) (w h r c : Nat)
    (hS : ∀ p ∈ S, 1 ≤ (r : Int) + p.1 ∧ (r : Int) + p.1 ≤ (h : Int) - 2 ∧
                   1 ≤ (c : Int) + p.2 ∧ (c : Int) + p.2 ≤ (w : Int) - 2)
    (i j : Nat) (hi : i < h) (hj : j < w) (d1 d2 : Int)
    (hd1 : -1 ≤ d1 ∧ d1 ≤ 1) (hd2 : -1 ≤ d2 ∧ d2 ≤ 1) :
    (((((i : Int) + d1) % (h : Int)).toNat : Int) - r,
     ((((j : Int) + d2) % (w : Int)).toNat : Int) - c) ∈ S ↔
    ((i : Int) - r + d1, (j : Int) - c + d2) ∈ S := by
  have hh0 : 0 < h := by omega
  have hw0 : 0 < w := by omega
  rcases wrap_coord h hh0 i hi d1 hd1 with hr1 | hr1 <;>
    rcases wrap_coord w hw0 j hj d2 hd2 with hc1 | hc1
  · rw [hr1, hc1, show (i : Int) + d1 - r = (i : Int) - r + d1 by ring,
      show (j : Int) + d2 - c = (j : Int) - c + d2 by ring]
  · constructor <;> (intro hm; exfalso; have hb := hS _ hm; simp only at hb; omega)
  · constructor <;> (intro hm; exfalso; have hb := hS _ hm; simp only at hb; omega)
  · constructor <;> (intro hm; exfalso; have hb := hS _ hm; simp only at hb; omega)

lemma spec_term (S : List (Int × Int)) (w h r c : Nat)
    (hS : ∀ p ∈ S, 1 ≤ (r : Int) + p.1 ∧ (r : Int) + p.1 ≤ (h : Int) - 2 ∧
                   1 ≤ (c : Int) + p.2 ∧ (c : Int) + p.2 ≤ (w : Int) - 2)
    (i j : Nat) (hi : i < h) (hj : j < w) (d1 d2 : Int)
    (hd1 : -1 ≤ d1 ∧ d1 ≤ 1) (hd2 : -1 ≤ d2 ∧ d2 ≤ 1) :
    cellVal ((stamp w h r c S).cells.getD
      ((((i : Int) + d1) % (h : Int)).toNat * w +
        (((j : Int) + d2) % (w : Int)).toNat) Cell.Dead) =
    if ((i : Int) - r + d1, (j : Int) - c + d2) ∈ S then 1 else 0 := by
  rw [stamp_getD w h r c S _ _ (emod_toNat_lt h (by omega) _)
      (emod_toNat_lt w (by omega) _),
    cellVal_sceneCell]
  exact if_congr (mem_scene_iff S w h r c hS i j hi hj d1 d2 hd1 hd2) rfl rfl

lemma neigh_stamp (S : List (Int × Int)) (w h r c : Nat)
    (hh2 : 2 ≤ h) (hw2 : 2 ≤ w)
    (hS : ∀ p ∈ S, 1 ≤ (r : Int) + p.1 ∧ (r : Int) + p.1 ≤ (h : Int) - 2 ∧
                   1 ≤ (c : Int) + p.2 ∧ (c : Int) + p.2 ≤ (w : Int) - 2)
    (i j : Nat) (hi : i < h) (hj : j < w) :
    (stamp w h r c S).neigh_alive_count i j =
      sceneCount S ((i : Int) - r, (j : Int) - c) := by
  rw [neigh_eq_spec (stamp w h r c S) hh2 hw2 i j]
  simp only [specNeighCount, sceneCount, offs8, stamp_width, stamp_height,
    List.foldl_cons, List.foldl_nil]
  rw [spec_term S w h r c hS i j hi hj (-1) (-1) (by omega) (by omega),
    spec_term S w h r c hS i j hi hj (-1) 0 (by omega) (by omega),
    spec_term S w h r c hS i j hi hj (-1) 1 (by omega) (by omega),
    spec_term S w h r c hS i j hi hj 0 (-1) (by omega) (by omega),
    spec_term S w h r c hS i j hi hj 0 1 (by omega) (by omega),
    spec_term S w h r c hS i j hi hj 1 (-1) (by omega) (by omega),
    spec_term S w h r c hS i j hi hj 1 0 (by omega) (by omega),
    spec_term S w h r c hS i j hi hj 1 1 (by omega) (by omega)]

lemma birth_mem_dilate (S : List (Int × Int)) (p : Int × Int)
    (h : golStep (if p ∈ S then Cell.Alive else Cell.Dead) (sceneCount S p) =
      Cell.Alive) :
    p ∈ dilate S := by
  obtain ⟨p1, p2⟩ := p
  by_cases hp : (p1, p2) ∈ S
  · unfold dilate
    rw [List.mem_flatMap]
    refine ⟨(p1, p2), hp, ?_⟩
    rw [List.mem_map]
    exact ⟨(0, 0), by simp [offs9], by simp⟩
  · have hn : sceneCount S (p1, p2) = 3 := by
      by_contra hne
      rw [if_neg hp] at h
      unfold golStep at h
      simp [hne] at h
    have hex : ∃ d ∈ offs8, (p1 + d.1, p2 + d.2) ∈ S := by
      by_contra hno
      push_neg at hno
      have h0 : sceneCount S (p1, p2) = 0 := by
        unfold sceneCount offs8
        simp only [List.foldl_cons, List.foldl_nil]
        rw [if_neg (hno (-1, -1) (by simp [offs8])),
          if_neg (hno (-1, 0) (by simp [offs8])),
          if_neg (hno (-1, 1) (by simp [offs8])),
          if_neg (hno (0, -1) (by simp [offs8])),
          if_neg (hno (0, 1) (by simp [offs8])),
          if_neg (hno (1, -1) (by simp [offs8])),
          if_neg (hno (1, 0) (by simp [offs8])),
          if_neg (hno (1, 1) (by simp [offs8]))]
      omega
    obtain ⟨d, hd, hmem⟩ := hex
    unfold dilate
    rw [List.mem_flatMap]
    refine ⟨(p1 + d.1, p2 + d.2), hmem, ?_⟩
    rw [List.mem_map]
    refine ⟨d, List.mem_cons_of_mem _ hd, ?_⟩
    show (p1 + d.1 - d.1, p2 + d.2 - d.2) = (p1, p2)
    rw [show p1 + d.1 - d.1 = p1 by ring, show p2 + d.2 - d.2 = p2 by ring]

lemma golStep_scene (S : List (Int × Int)) (p : Int × Int) :
    golStep (if p ∈ S then Cell.Alive else Cell.Dead) (sceneCount S p) =
      (if p ∈ evolveScene S then Cell.Alive else Cell.Dead) := by
  by_cases hres : golStep (if p ∈ S then Cell.Alive else Cell.Dead)
      (sceneCount S p) = Cell.Alive
  · rw [hres, if_pos]
    unfold evolveScene
    rw [List.mem_filter]
    exact ⟨birth_mem_dilate S p hres, by simpa using hres⟩
  · have hdead : golStep (if p ∈ S then Cell.Alive else Cell.Dead)
        (sceneCount S p) = Cell.Dead := by
      rcases hval : golStep (if p ∈ S then Cell.Alive else Cell.Dead)
        (sceneCount S p) with _ | _
      · rfl
      · exact absurd hval hres
    rw [hdead, if_neg]
    intro hmem
    unfold evolveScene at hmem
    rw [List.mem_filter] at hmem
    exact hres (by simpa using hmem.2)

lemma list_eq_of_getD (l1 l2 : List Cell) (hlen : l1.length = l2.length)
    (h : ∀ n, n < l1.length →
      l1.getD n Cell.Dead = l2.getD n Cell.Dead) : l1 = l2 := by
  apply List.ext_getElem hlen
  intro n h1 h2
  have hn := h n h1
  rwa [List.getD_eq_getElem?_getD, List.getD_eq_getElem?_getD,
    List.getElem?_eq_getElem h1, List.getElem?_eq_getElem h2] at hn

lemma stamp_wf (w h r c : Nat) (S : List (Int × Int)) : (stamp w h r c S).wf := by
  show ((List.range (h * w)).map _).length = w * h
  rw [List.length_map, List.length_range, Nat.mul_comm]

lemma tick_stamp (w h r c : Nat) (hh2 : 2 ≤ h) (hw2 : 2 ≤ w)
    (S : List (Int × Int))
    (hS : ∀ p ∈ S, 1 ≤ (r : Int) + p.1 ∧ (r : Int) + p.1 ≤ (h : Int) - 2 ∧
                   1 ≤ (c : Int) + p.2 ∧ (c : Int) + p.2 ≤ (w : Int) - 2) :
    (stamp w h r c S).tick = stamp w h r c (evolveScene S) := by
  have hw0 : 0 < w := by omega
  apply universe_eq
  · rfl
  · rfl
  apply list_eq_of_getD
  · rw [tick_length]
    show ((List.range (h * w)).map _).length = ((List.range (h * w)).map _).length
    rw [List.length_map, List.length_map]
  · intro n hn
    rw [tick_length] at hn
    have hn' : n < h * w := by
      have he : (stamp w h r c S).cells.length = h * w := by
        show ((List.range (h * w)).map _).length = h * w
        rw [List.length_map, List.length_range]
      rw [he] at hn
      exact hn
    have hi : n / w < h := by
      rw [Nat.div_lt_iff_lt_mul hw0]
      omega
    have hj : n % w < w := Nat.mod_lt _ hw0
    have hnn : n = n / w * w + n % w := by
      have h1 := Nat.div_add_mod n w
      have h2 : n / w * w = w * (n / w) := Nat.mul_comm _ _
      omega
    have ht := tick_getD (stamp w h r c S) (stamp_wf w h r c S) (n / w) (n % w)
      hi hj
    rw [stamp_width] at ht
    rw [hnn, ht, stamp_getD w h r c S _ _ hi hj,
      stamp_getD w h r c (evolveScene S) _ _ hi hj,
      neigh_stamp S w h r c hh2 hw2 hS _ _ hi hj]
    exact golStep_scene S ((n / w : Int) - r, ((n % w : Int)) - c)

lemma dead_wf (w h : Nat) : (deadUniverse w h).wf := by
  show (List.replicate (w * h) Cell.Dead).length = w * h
  rw [List.length_replicate]

lemma getD_replicate_dead (n i : Nat) :
    (List.replicate n Cell.Dead).getD i Cell.Dead = Cell.Dead := by
  rw [List.getD_eq_getElem?_getD]
  rcases hx : (List.replicate n Cell.Dead)[i]? with _ | a
  · rfl
  · have := List.getElem?_mem hx
    rw [List.eq_of_mem_replicate this]
    rfl

/-- On the all-Dead universe, a successful `insert_glider` is exactly the
glider scene stamped at the insertion centre. -/

lemma insert_dead_eq_stamp (w h R C : Nat) (h1R : 1 ≤ R) (h1C : 1 ≤ C)
    (hRh : R + 1 < h) (hCw : C + 1 < w) :
    (deadUniverse w h).insert_glider R C = some (stamp w h R C gliderScene) := by
  rw [insert_glider_eq (deadUniverse w h) (dead_wf w h) R C h1R h1C hRh hCw]
  congr 1
  apply universe_eq
  · rfl
  · rfl
  show (((((((((List.replicate (w * h) Cell.Dead).set
      ((R - 1) * w + (C - 1)) Cell.Dead).set
      ((R - 1) * w + C) Cell.Alive).set
      ((R - 1) * w + (C + 1)) Cell.Dead).set
      (R * w + (C - 1)) Cell.Dead).set
      (R * w + C) Cell.Dead).set
      (R * w + (C + 1)) Cell.Alive).set
      ((R + 1) * w + (C - 1)) Cell.Alive).set
      ((R + 1) * w + C) Cell.Alive).set
      ((R + 1) * w + (C + 1)) Cell.Alive =
    (stamp w h R C gliderScene).cells
  have hw0 : 0 < w := by omega
  apply list_eq_of_getD
  · simp only [List.length_set, List.length_replicate]
    show w * h = ((List.range (h * w)).map _).length
    rw [List.length_map, List.length_range, Nat.mul_comm]
  · intro n hn
    have hn' : n < w * h := by
      simpa using hn
    have hi : n / w < h := by
      rw [Nat.div_lt_iff_lt_mul hw0]
      have : w * h = h * w := Nat.mul_comm _ _
      omega
    have hj : n % w < w := Nat.mod_lt _ hw0
    have hnn : n = n / w * w + n % w := by
      have h1 := Nat.div_add_mod n w
      have h2 : n / w * w = w * (n / w) := Nat.mul_comm _ _
      omega
    have hlt : ∀ a b : Nat, a < h → b < w →
        a * w + b < (List.replicate (w * h) Cell.Dead).length := by
      intro a b ha hb
      rw [List.length_replicate]
      have h1 : (a + 1) * w = a * w + w := by ring
      have h2 : (a + 1) * w ≤ h * w := Nat.mul_le_mul_right _ (by omega)
      have h3 : h * w = w * h := Nat.mul_comm _ _
      omega
    rw [hnn, stamp_getD w h R C gliderScene _ _ hi hj]
    by_cases hb : R - 1 ≤ n / w ∧ n / w ≤ R + 1 ∧ C - 1 ≤ n % w ∧ n % w ≤ C + 1
    case neg =>
    -- outside the block: all nine writes miss, and the point is not in the scene
      have hns : sceneCell gliderScene R C (n / w) (n % w) = Cell.Dead := by
        unfold sceneCell
        rw [if_neg]
        intro hmem
        simp only [gliderScene, List.mem_cons, List.not_mem_nil, or_false,
          Prod.mk.injEq] at hmem
        omega
      rw [hns]
      rw [        getD_set_ne _ _ _ _ _ (ne_of_index w (R + 1) (C + 1) (n / w) (n % w) (by omega) hj (by omega)),
        getD_set_ne _ _ _ _ _ (ne_of_index w (R + 1) (C) (n / w) (n % w) (by omega) hj (by omega)),
        getD_set_ne _ _ _ _ _ (ne_of_index w (R + 1) (C - 1) (n / w) (n % w) (by omega) hj (by omega)),
        getD_set_ne _ _ _ _ _ (ne_of_index w (R) (C + 1) (n / w) (n % w) (by omega) hj (by omega)),
        getD_set_ne _ _ _ _ _ (ne_of_index w (R) (C) (n / w) (n % w) (by omega) hj (by omega)),
        getD_set_ne _ _ _ _ _ (ne_of_index w (R) (C - 1) (n / w) (n % w) (by omega) hj (by omega)),
        getD_set_ne _ _ _ _ _ (ne_of_index w (R - 1) (C + 1) (n / w) (n % w) (by omega) hj (by omega)),
        getD_set_ne _ _ _ _ _ (ne_of_index w (R - 1) (C) (n / w) (n % w) (by omega) hj (by omega)),
        getD_set_ne _ _ _ _ _ (ne_of_index w (R - 1) (C - 1) (n / w) (n % w) (by omega) hj (by omega)),
        getD_replicate_dead (w * h) (n / w * w + n % w)]
    case pos =>
      have hrc : n / w = R - 1 ∨ n / w = R ∨ n / w = R + 1 := by omega
      have hcc : n % w = C - 1 ∨ n % w = C ∨ n % w = C + 1 := by omega
      rcases hrc with hre | hre | hre <;> rcases hcc with hce | hce | hce <;>
        rw [hre, hce]
      · rw [          getD_set_ne _ _ _ _ _ (ne_of_index w (R + 1) (C + 1) (R - 1) (C - 1) (by omega) (by omega) (by omega)),
          getD_set_ne _ _ _ _ _ (ne_of_index w (R + 1) (C) (R - 1) (C - 1) (by omega) (by omega) (by omega)),
          getD_set_ne _ _ _ _ _ (ne_of_index w (R + 1) (C - 1) (R - 1) (C - 1) (by omega) (by omega) (by omega)),
          getD_set_ne _ _ _ _ _ (ne_of_index w (R) (C + 1) (R - 1) (C - 1) (by omega) (by omega) (by omega)),
          getD_set_ne _ _ _ _ _ (ne_of_index w (R) (C) (R - 1) (C - 1) (by omega) (by omega) (by omega)),
          getD_set_ne _ _ _ _ _ (ne_of_index w (R) (C - 1) (R - 1) (C - 1) (by omega) (by omega) (by omega)),
          getD_set_ne _ _ _ _ _ (ne_of_index w (R - 1) (C + 1) (R - 1) (C - 1) (by omega) (by omega) (by omega)),
          getD_set_ne _ _ _ _ _ (ne_of_index w (R - 1) (C) (R - 1) (C - 1) (by omega) (by omega) (by omega)),
          getD_set_self _ _ _ _ (hlt _ _ (by omega) (by omega))]
        unfold sceneCell
        rw [show ((R - 1 : Nat) : Int) - R = -1 by omega,
          show ((C - 1 : Nat) : Int) - C = -1 by omega]
        decide
      · rw [          getD_set_ne _ _ _ _ _ (ne_of_index w (R + 1) (C + 1) (R - 1) (C) (by omega) (by omega) (by omega)),
          getD_set_ne _ _ _ _ _ (ne_of_index w (R + 1) (C) (R - 1) (C) (by omega) (by omega) (by omega)),
          getD_set_ne _ _ _ _ _ (ne_of_index w (R + 1) (C - 1) (R - 1) (C) (by omega) (by omega) (by omega)),
          getD_set_ne _ _ _ _ _ (ne_of_index w (R) (C + 1) (R - 1) (C) (by omega) (by omega) (by omega)),
          getD_set_ne _ _ _ _ _ (ne_of_index w (R) (C) (R - 1) (C) (by omega) (by omega) (by omega)),
          getD_set_ne _ _ _ _ _ (ne_of_index w (R) (C - 1) (R - 1) (C) (by omega) (by omega) (by omega)),
          getD_set_ne _ _ _ _ _ (ne_of_index w (R - 1) (C + 1) (R - 1) (C) (by omega) (by omega) (by omega)),
          getD_set_self _ _ _ _ (by
            simp only [List.length_set]
            exact hlt _ _ (by omega) (by omega))]
        unfold sceneCell
        rw [show ((R - 1 : Nat) : Int) - R = -1 by omega,
          show ((C : Nat) : Int) - C = 0 by omega]
        decide
      · rw [          getD_set_ne _ _ _ _ _ (ne_of_index w (R + 1) (C + 1) (R - 1) (C + 1) (by omega) (by omega) (by omega)),
          getD_set_ne _ _ _ _ _ (ne_of_index w (R + 1) (C) (R - 1) (C + 1) (by omega) (by omega) (by omega)),
          getD_set_ne _ _ _ _ _ (ne_of_index w (R + 1) (C - 1) (R - 1) (C + 1) (by omega) (by omega) (by omega)),
          getD_set_ne _ _ _ _ _ (ne_of_index w (R) (C + 1) (R - 1) (C + 1) (by omega) (by omega) (by omega)),
          getD_set_ne _ _ _ _ _ (ne_of_index w (R) (C) (R - 1) (C + 1) (by omega) (by omega) (by omega)),
          getD_set_ne _ _ _ _ _ (ne_of_index w (R) (C - 1) (R - 1) (C + 1) (by omega) (by omega) (by omega)),
          getD_set_self _ _ _ _ (by
            simp only [List.length_set]
            exact hlt _ _ (by omega) (by omega))]
        unfold sceneCell
        rw [show ((R - 1 : Nat) : Int) - R = -1 by omega,
          show ((C + 1 : Nat) : Int) - C = 1 by omega]
        decide
      · rw [          getD_set_ne _ _ _ _ _ (ne_of_index w (R + 1) (C + 1) (R) (C - 1) (by omega) (by omega) (by omega)),
          getD_set_ne _ _ _ _ _ (ne_of_index w (R + 1) (C) (R) (C - 1) (by omega) (by omega) (by omega)),
          getD_set_ne _ _ _ _ _ (ne_of_index w (R + 1) (C - 1) (R) (C - 1) (by omega) (by omega) (by omega)),
          getD_set_ne _ _ _ _ _ (ne_of_index w (R) (C + 1) (R) (C - 1) (by omega) (by omega) (by omega)),
          getD_set_ne _ _ _ _ _ (ne_of_index w (R) (C) (R) (C - 1) (by omega) (by omega) (by omega)),
          getD_set_self _ _ _ _ (by
            simp only [List.length_set]
            exact hlt _ _ (by omega) (by omega))]
        unfold sceneCell
        rw [show ((R : Nat) : Int) - R = 0 by omega,
          show ((C - 1 : Nat) : Int) - C = -1 by omega]
        decide
      · rw [          getD_set_ne _ _ _ _ _ (ne_of_index w (R + 1) (C + 1) (R) (C) (by omega) (by omega) (by omega)),
          getD_set_ne _ _ _ _ _ (ne_of_index w (R + 1) (C) (R) (C) (by omega) (by omega) (by omega)),
          getD_set_ne _ _ _ _ _ (ne_of_index w (R + 1) (C - 1) (R) (C) (by omega) (by omega) (by omega)),
          getD_set_ne _ _ _ _ _ (ne_of_index w (R) (C + 1) (R) (C) (by omega) (by omega) (by omega)),
          getD_set_self _ _ _ _ (by
            simp only [List.length_set]
            exact hlt _ _ (by omega) (by omega))]
        unfold sceneCell
        rw [show ((R : Nat) : Int) - R = 0 by omega,
          show ((C : Nat) : Int) - C = 0 by omega]
        decide
      · rw [          getD_set_ne _ _ _ _ _ (ne_of_index w (R + 1) (C + 1) (R) (C + 1) (by omega) (by omega) (by omega)),
          getD_set_ne _ _ _ _ _ (ne_of_index w (R + 1) (C) (R) (C + 1) (by omega) (by omega) (by omega)),
          getD_set_ne _ _ _ _ _ (ne_of_index w (R + 1) (C - 1) (R) (C + 1) (by omega) (by omega) (by omega)),
          getD_set_self _ _ _ _ (by
            simp only [List.length_set]
            exact hlt _ _ (by omega) (by omega))]
        unfold sceneCell
        rw [show ((R : Nat) : Int) - R = 0 by omega,
          show ((C + 1 : Nat) : Int) - C = 1 by omega]
        decide
      · rw [          getD_set_ne _ _ _ _ _ (ne_of_index w (R + 1) (C + 1) (R + 1) (C - 1) (by omega) (by omega) (by omega)),
          getD_set_ne _ _ _ _ _ (ne_of_index w (R + 1) (C) (R + 1) (C - 1) (by omega) (by omega) (by omega)),
          getD_set_self _ _ _ _ (by
            simp only [List.length_set]
            exact hlt _ _ (by omega) (by omega))]
        unfold sceneCell
        rw [show ((R + 1 : Nat) : Int) - R = 1 by omega,
          show ((C - 1 : Nat) : Int) - C = -1 by omega]
        decide
      · rw [          getD_set_ne _ _ _ _ _ (ne_of_index w (R + 1) (C + 1) (R + 1) (C) (by omega) (by omega) (by omega)),
          getD_set_self _ _ _ _ (by
            simp only [List.length_set]
            exact hlt _ _ (by omega) (by omega))]
        unfold sceneCell
        rw [show ((R + 1 : Nat) : Int) - R = 1 by omega,
          show ((C : Nat) : Int) - C = 0 by omega]
        decide
      · rw [          getD_set_self _ _ _ _ (by
            simp only [List.length_set]
            exact hlt _ _ (by omega) (by omega))]
        unfold sceneCell
        rw [show ((R + 1 : Nat) : Int) - R = 1 by omega,
          show ((C + 1 : Nat) : Int) - C = 1 by omega]
        decide

lemma stamp_congr (w h r c : Nat) (S S' : List (Int × Int))
    (hmem : ∀ q : Int × Int, q ∈ S ↔ q ∈ S') :
    stamp w h r c S = stamp w h r c S' := by
  unfold stamp
  congr 1
  apply List.map_congr_left
  intro k hk
  unfold sceneCell
  exact if_congr (hmem _) rfl rfl

lemma stamp_shift (w h r c : Nat) (S S' : List (Int × Int))
    (hmem : ∀ q1 q2 : Int, (q1, q2) ∈ S ↔ (q1 - 1, q2 - 1) ∈ S') :
    stamp w h r c S = stamp w h (r + 1) (c + 1) S' := by
  unfold stamp
  congr 1
  apply List.map_congr_left
  intro k hk
  unfold sceneCell
  refine if_congr ?_ rfl rfl
  rw [hmem]
  rw [show ((k / w : Nat) : Int) - (r : Int) - 1 =
      ((k / w : Nat) : Int) - ((r + 1 : Nat) : Int) by push_cast; ring,
    show ((k % w : Nat) : Int) - (c : Int) - 1 =
      ((k % w : Nat) : Int) - ((c + 1 : Nat) : Int) by push_cast; ring]

lemma mem_step1 : ∀ q : Int × Int, q ∈ evolveScene gliderScene ↔ q ∈ S1lit := by
  intro q
  obtain ⟨q1, q2⟩ := q
  rw [show evolveScene gliderScene =
    [((0:Int), (1:Int)), (0, -1), (0, 1), (1, 1), (1, 0), (2, 0), (1, 0), (0, -1),
     (1, 0), (2, 0), (1, 1), (0, 1), (0, -1), (1, 1), (2, 0), (1, 0), (0, 1)]
    from by decide]
  simp only [S1lit, List.mem_cons, List.not_mem_nil, or_false, Prod.mk.injEq]
  omega

lemma mem_step2 : ∀ q : Int × Int, q ∈ evolveScene S1lit ↔ q ∈ S2lit := by
  intro q
  obtain ⟨q1, q2⟩ := q
  rw [show evolveScene S1lit =
    [((1:Int), (-1:Int)), (0, 1), (1, 1), (2, 1), (2, 0), (1, 1), (1, -1), (0, 1),
     (1, 1), (2, 1), (2, 0), (0, 1), (2, 0), (2, 1), (1, 1), (1, -1)]
    from by decide]
  simp only [S2lit, List.mem_cons, List.not_mem_nil, or_false, Prod.mk.injEq]
  omega

lemma mem_step3 : ∀ q : Int × Int, q ∈ evolveScene S2lit ↔ q ∈ S3lit := by
  intro q
  obtain ⟨q1, q2⟩ := q
  rw [show evolveScene S2lit =
    [((1:Int), (2:Int)), (1, 1), (0, 0), (2, 0), (0, 0), (1, 1), (2, 1), (2, 0),
     (1, 2), (0, 0), (2, 0), (2, 1), (1, 1), (2, 1), (2, 0), (1, 2), (1, 1)]
    from by decide]
  simp only [S3lit, List.mem_cons, List.not_mem_nil, or_false, Prod.mk.injEq]
  omega

lemma mem_step4 : ∀ q1 q2 : Int,
    (q1, q2) ∈ evolveScene S3lit ↔ (q1 - 1, q2 - 1) ∈ gliderScene := by
  intro q1 q2
  rw [show evolveScene S3lit =
    [((0:Int), (1:Int)), (2, 2), (2, 1), (2, 0), (1, 2), (0, 1), (1, 2), (2, 2),
     (2, 1), (0, 1), (2, 0), (2, 1), (2, 1), (2, 2), (2, 0), (1, 2)]
    from by decide]
  simp only [gliderScene, List.mem_cons, List.not_mem_nil, or_false,
    Prod.mk.injEq]
  omega

/-- C7: on every all-Dead torus of size at least 8 x 8, inserting a glider
at any (r, c) whose 4-tick evolution stays strictly off the grid edges
(equivalently `2 <= r`, `2 <= c`, `r + 4 <= height`, `c + 4 <= width`:
the evolution occupies rows `r-1 .. r+2` and columns `c-1 .. c+2`) and
then calling `tick` 4 times yields exactly the same glider translated by
(1, 1), with all other cells Dead. -/
theorem C7_glider_period_four (w h r c : Nat)
    (hw8 : 8 ≤ w) (hh8 : 8 ≤ h) (hr2 : 2 ≤ r) (hc2 : 2 ≤ c)
    (hrh : r + 4 ≤ h) (hcw : c + 4 ≤ w) :
    ((deadUniverse w h).insert_glider r c).map
        (fun u => u.tick.tick.tick.tick) =
      (deadUniverse w h).insert_glider (r + 1) (c + 1) := by
  have hh2 : 2 ≤ h := by omega
  have hw2 : 2 ≤ w := by omega
  have box0 : ∀ p ∈ gliderScene,
      1 ≤ (r : Int) + p.1 ∧ (r : Int) + p.1 ≤ (h : Int) - 2 ∧
      1 ≤ (c : Int) + p.2 ∧ (c : Int) + p.2 ≤ (w : Int) - 2 := by
    intro p hp
    obtain ⟨p1, p2⟩ := p
    simp only [gliderScene, List.mem_cons, List.not_mem_nil, or_false,
      Prod.mk.injEq] at hp
    dsimp only
    omega
  have box1 : ∀ p ∈ S1lit,
      1 ≤ (r : Int) + p.1 ∧ (r : Int) + p.1 ≤ (h : Int) - 2 ∧
      1 ≤ (c : Int) + p.2 ∧ (c : Int) + p.2 ≤ (w : Int) - 2 := by
    intro p hp
    obtain ⟨p1, p2⟩ := p
    simp only [S1lit, List.mem_cons, List.not_mem_nil, or_false,
      Prod.mk.injEq] at hp
    dsimp only
    omega
  have box2 : ∀ p ∈ S2lit,
      1 ≤ (r : Int) + p.1 ∧ (r : Int) + p.1 ≤ (h : Int) - 2 ∧
      1 ≤ (c : Int) + p.2 ∧ (c : Int) + p.2 ≤ (w : Int) - 2 := by
    intro p hp
    obtain ⟨p1, p2⟩ := p
    simp only [S2lit, List.mem_cons, List.not_mem_nil, or_false,
      Prod.mk.injEq] at hp
    dsimp only
    omega
  have box3 : ∀ p ∈ S3lit,
      1 ≤ (r : Int) + p.1 ∧ (r : Int) + p.1 ≤ (h : Int) - 2 ∧
      1 ≤ (c : Int) + p.2 ∧ (c : Int) + p.2 ≤ (w : Int) - 2 := by
    intro p hp
    obtain ⟨p1, p2⟩ := p
    simp only [S3lit, List.mem_cons, List.not_mem_nil, or_false,
      Prod.mk.injEq] at hp
    dsimp only
    omega
  rw [insert_dead_eq_stamp w h r c (by omega) (by omega) (by omega) (by omega),
    insert_dead_eq_stamp w h (r + 1) (c + 1) (by omega) (by omega) (by omega)
      (by omega),
    Option.map_some']
  congr 1
  rw [tick_stamp w h r c hh2 hw2 gliderScene box0,
    stamp_congr w h r c _ S1lit mem_step1,
    tick_stamp w h r c hh2 hw2 S1lit box1,
    stamp_congr w h r c _ S2lit mem_step2,
    tick_stamp w h r c hh2 hw2 S2lit box2,
    stamp_congr w h r c _ S3lit mem_step3,
    tick_stamp w h r c hh2 hw2 S3lit box3,
    stamp_shift w h r c _ gliderScene mem_step4]

/-- Witness for C7 at the smallest size the claim names: an 8 x 8 torus with
the glider inserted at (2, 2). -/
theorem C7_glider_period_four_witness :
    ((deadUniverse 8 8).insert_glider 2 2).map
        (fun u => u.tick.tick.tick.tick) =
      (deadUniverse 8 8).insert_glider (2 + 1) (2 + 1) :=
  C7_glider_period_four 8 8 2 2 (by decide) (by decide) (by decide) (by decide)
    (by decide) (by decide)
